import Mathlib

/-!
Shallow embedding of the label-refinement workflow of the
Ai_Assisted_Project_App backend.

Sources embedded:
- `src/models/project.py`, `src/models/label.py` (rows and cascade rules),
- `src/schemas.py` (marshmallow input validation),
- `src/resources/label.py` (label / refinement endpoints),
- `src/resources/project.py` (project deletion),
- `src/resources/gemini.py` (the generation-provider adapter's error discipline).

The relational store is a triple of row lists; each endpoint is a function
from the pre-state and its inputs to the post-state and an
`Except`-style outcome (on an error outcome the handler rolls back, so the
post-state is the pre-state). Autoincrement primary keys are modelled by an
explicit `nextId` argument.
-/

/-- A row of `projects` (src/models/project.py): id, name, description, user_id. -/
structure Project where
  id : Nat
  name : String
  description : String
  userId : Nat
deriving DecidableEq

/-- A row of `labels` (src/models/label.py): id, text, project_id. -/
structure Label where
  id : Nat
  text : String
  projectId : Nat
deriving DecidableEq

/-- A row of `refined_labels`. Modelled from the spec: the model module
`models/refined_label.py` is imported by the source but absent from the
source tree; the spec's persisted shape is
`Refinement{id, difficulty, generatedText, labelId}`, matching the fields
used by `src/resources/label.py` (`generated_text`, `difficulty`,
`input_label_id`). -/
structure Refinement where
  id : Nat
  generatedText : String
  difficulty : String
  inputLabelId : Nat
deriving DecidableEq

/-- The relational store restricted to the tables the workflow touches. -/
structure Store where
  projects : List Project
  labels : List Label
  refinements : List Refinement
deriving DecidableEq

/-- One constructor per distinct abort site reached by the embedded
endpoints, tagged with the HTTP status the source uses (see `ApiErr.status`). -/
inductive ApiErr where
  | schemaRejected
  | notFoundOrForbidden
  | invalidDifficulty
  | limitExceeded
  | textTooShort
  | noData
  | missingFields
  | bothProvided
  | generationFailed
deriving DecidableEq

/-- The HTTP status each abort site uses in the source
(flask-smorest returns 422 for marshmallow validation failures). -/
def ApiErr.status : ApiErr → Nat
  | .schemaRejected => 422
  | .notFoundOrForbidden => 404
  | .generationFailed => 502
  | _ => 400

/-- Outcome of one call to the underlying Gemini model
(`GeminiService._model.generate_content` in src/resources/gemini.py):
either the call raises or the model handle was never initialized (`fail`),
or it returns response text, possibly empty. -/
inductive ProviderResponse where
  | fail
  | text (s : String)
deriving DecidableEq

/-- Error discipline shared by `GeminiService.refine_label_text` and
`GeminiService.reconstruct_label_text` (src/resources/gemini.py, lines
40-64 and 67-85): an unavailable model, a raised error, and an empty
response text all surface as `ConnectionError`; otherwise the response
text is returned. -/
def providerResult (resp : ProviderResponse) : Except Unit String :=
  match resp with
  | .fail => .error ()
  | .text t => if t = "" then .error () else .ok t

/-- The provider as seen by `generate`: a function of
(label text, difficulty, project name, project description), the arguments
`LabelGenerateResource.post` passes to `refine_label_text`. -/
def GenProvider := String → String → Option String → Option String → ProviderResponse

/-- The provider as seen by `patchRefinement`: a function of
(old output, user feedback, label text, difficulty), the arguments
`RefinedLabelResource.patch` passes to `reconstruct_label_text`. -/
def ReconProvider := String → String → String → String → ProviderResponse

/-- The difficulty whitelist `{"simple", "intermediate", "in_depth"}`
checked by the generate and manual handlers. -/
def validDifficulty (d : String) : Bool :=
  d == "simple" || d == "intermediate" || d == "in_depth"

/-- Embeds `ProjectModel.query.filter_by(id=project_id, user_id=current_user_id).first()`. -/
def findOwnedProject (s : Store) (userId projectId : Nat) : Option Project :=
  s.projects.find? (fun p => p.id == projectId && p.userId == userId)

/-- The join condition `LabelModel.project_id == ProjectModel.id` together
with the filter `ProjectModel.user_id == current_user_id`. -/
def ownsLabel (s : Store) (userId : Nat) (l : Label) : Bool :=
  s.projects.any (fun p => p.id == l.projectId && p.userId == userId)

/-- The ownership-checking label lookup used by the generate, manual and
delete handlers: label joined to its project, filtered by label id and the
acting user's id, `.first()`. -/
def findOwnedLabel (s : Store) (userId labelId : Nat) : Option Label :=
  s.labels.find? (fun l => l.id == labelId && ownsLabel s userId l)

/-- Embeds `project.labels.count()` (the `labels` relationship is `lazy="dynamic"`). -/
def labelCount (s : Store) (projectId : Nat) : Nat :=
  (s.labels.filter (fun l => l.projectId == projectId)).length

/-- Embeds `RefinedLabelModel.query.filter_by(input_label_id=..., difficulty=...).first()`. -/
def findRefinementByKey (s : Store) (labelId : Nat) (d : String) : Option Refinement :=
  s.refinements.find? (fun r => r.inputLabelId == labelId && r.difficulty == d)

/-- Embeds `label.project`: the relationship lookup by foreign key. -/
def projectOf (s : Store) (l : Label) : Option Project :=
  s.projects.find? (fun p => p.id == l.projectId)

/-- Mutating the single ORM object returned by `.first()` and committing:
the first row satisfying `p` is replaced by its image under `f`; every
other row is untouched. -/
def updateFirst (p : α → Bool) (f : α → α) : List α → List α
  | [] => []
  | x :: xs => if p x then f x :: xs else x :: updateFirst p f xs

/-- Embeds `ProjectAddLabelsSchema` (src/schemas.py lines 81-87): `labels` is a
list of 1 to 10 strings, each of raw (untrimmed) length 1 to 100;
marshmallow rejects the whole payload if any entry violates this. -/
def validAddLabelsPayload (texts : List String) : Bool :=
  decide (1 ≤ texts.length) && decide (texts.length ≤ 10) &&
    texts.all (fun t => decide (1 ≤ t.length) && decide (t.length ≤ 100))

/-- Embeds `MAX_LABELS` (src/resources/label.py line 21). -/
def MAX_LABELS : Nat := 10

/-- The creation loop of `ProjectLabelsList.post`: one `LabelModel` per
entry, in input order, with consecutive autoincrement ids. -/
def mkLabels (projectId nextId : Nat) : List String → List Label
  | [] => []
  | t :: ts => { id := nextId, text := t, projectId := projectId } :: mkLabels projectId (nextId + 1) ts

/-- Embeds `ProjectLabelsList.post` (src/resources/label.py lines 39-61) composed
with its argument schema: schema validation, ownership lookup, the
`count + len >= MAX_LABELS` cap check, then creation of all entries. -/
def addLabels (s : Store) (userId projectId : Nat) (texts : List String) (nextId : Nat) :
    Store × Except ApiErr (List Label) :=
  if !validAddLabelsPayload texts then (s, .error .schemaRejected)
  else
    match findOwnedProject s userId projectId with
    | none => (s, .error .notFoundOrForbidden)
    | some project =>
      if labelCount s project.id + texts.length ≥ MAX_LABELS then (s, .error .limitExceeded)
      else
        let created := mkLabels project.id nextId texts
        ({ s with labels := s.labels ++ created }, .ok created)

/-- Embeds `LabelGenerateResource.post` (src/resources/label.py lines 67-133):
ownership lookup, difficulty check, lookup of the existing (label,
difficulty) row, provider call, then update-in-place or create; on a
provider `ConnectionError` the session is rolled back and 502 is returned.
The argument schema `LabelGenerateArgs` is imported by the source but its
definition is absent from the source tree; modelled from the spec: it
deserializes the requested difficulty, which the handler re-validates
itself. -/
def generate (s : Store) (userId labelId : Nat) (d : String) (gen : GenProvider) (nextRefId : Nat) :
    Store × Except ApiErr Refinement :=
  match findOwnedLabel s userId labelId with
  | none => (s, .error .notFoundOrForbidden)
  | some label =>
    if !validDifficulty d then (s, .error .invalidDifficulty)
    else
      match findRefinementByKey s label.id d,
        providerResult (gen label.text d ((projectOf s label).map Project.name)
          ((projectOf s label).map Project.description)) with
      | _, .error _ => (s, .error .generationFailed)
      | some r0, .ok t =>
        let upd := updateFirst (fun r => r.inputLabelId == label.id && r.difficulty == d)
          (fun r => { r with generatedText := t }) s.refinements
        ({ s with refinements := upd }, .ok { r0 with generatedText := t })
      | none, .ok t =>
        let newRow : Refinement :=
          { id := nextRefId, generatedText := t, difficulty := d, inputLabelId := label.id }
        ({ s with refinements := s.refinements ++ [newRow] }, .ok newRow)

/-- Python `str.strip()` as used by `LabelManualResource.post`: leading and
trailing whitespace removed (written with `dropWhile` so that it reduces on
concrete strings). -/
def pyStrip (s : String) : String :=
  ⟨((s.data.dropWhile Char.isWhitespace).reverse.dropWhile Char.isWhitespace).reverse⟩

/-- Embeds `LabelManualResource.post` (src/resources/label.py lines 150-210):
the input text is stripped, ownership and difficulty are checked, the
stripped text must be at least 5 characters, then the stripped text is
upserted under the (label, difficulty) key. No provider is involved
(the definition takes none). The argument schema `LabelManualArgs` is
imported by the source but absent from the source tree; modelled from the
spec: it deserializes the difficulty and the text. -/
def setManualText (s : Store) (userId labelId : Nat) (d rawText : String) (nextRefId : Nat) :
    Store × Except ApiErr Refinement :=
  let inputText := pyStrip rawText
  match findOwnedLabel s userId labelId with
  | none => (s, .error .notFoundOrForbidden)
  | some label =>
    if !validDifficulty d then (s, .error .invalidDifficulty)
    else if inputText.length < 5 then (s, .error .textTooShort)
    else
      match findRefinementByKey s label.id d with
      | some r0 =>
        let upd := updateFirst (fun r => r.inputLabelId == label.id && r.difficulty == d)
          (fun r => { r with generatedText := inputText }) s.refinements
        ({ s with refinements := upd }, .ok { r0 with generatedText := inputText })
      | none =>
        let newRow : Refinement :=
          { id := nextRefId, generatedText := inputText, difficulty := d,
            inputLabelId := label.id }
        ({ s with refinements := s.refinements ++ [newRow] }, .ok newRow)

/-- The raw JSON body of a PATCH on `/refined_labels/<id>`: which of the
two fields are present, and with what values. -/
structure RefinedUpdateInput where
  feedback : Option String
  generatedText : Option String
deriving DecidableEq

/-- Embeds `RefinedLabelUpdateSchema` (src/schemas.py lines 96-98): `feedback` is
declared `required = True` with length 5 to 500, so a body without it is
rejected at load time; `generated_text` is optional with length 3 to 5000. -/
def loadRefinedUpdate (u : RefinedUpdateInput) : Except ApiErr RefinedUpdateInput :=
  match u.feedback with
  | none => .error .schemaRejected
  | some fb =>
    if fb.length < 5 ∨ 500 < fb.length then .error .schemaRejected
    else
      match u.generatedText with
      | none => .ok u
      | some t => if t.length < 3 ∨ 5000 < t.length then .error .schemaRejected else .ok u

/-- The label reached by `RefinedLabelModel → LabelModel → ProjectModel`
join filtered by the acting user, for a given refinement row. -/
def labelOwnedOf (s : Store) (userId : Nat) (r : Refinement) : Option Label :=
  s.labels.find? (fun l => l.id == r.inputLabelId && ownsLabel s userId l)

/-- The ownership-checking refinement lookup of `RefinedLabelResource.patch`:
refinement joined through its label to its project, filtered by refinement
id and the acting user's id, `.first()`; also yields the joined label
(`refined.input_label`). -/
def findOwnedRefinement (s : Store) (userId refinedId : Nat) : Option (Refinement × Label) :=
  match s.refinements.find? (fun r => r.id == refinedId && (labelOwnedOf s userId r).isSome) with
  | none => none
  | some r =>
    match labelOwnedOf s userId r with
    | none => none
    | some l => some (r, l)

/-- The `RefinedLabelResource.patch` handler body (src/resources/label.py
lines 250-309), run on the already-loaded update data: empty-body check,
ownership lookup, exactly-one-of-feedback-or-text dispatch; the text
branch writes the supplied text, the feedback branch calls the provider
with (old output, feedback, label text, difficulty) and writes its result,
surfacing 502 on provider failure. -/
def patchRefinement (s : Store) (userId refinedId : Nat) (u : RefinedUpdateInput)
    (recon : ReconProvider) : Store × Except ApiErr Refinement :=
  if u.feedback.isNone ∧ u.generatedText.isNone then (s, .error .noData)
  else
    match findOwnedRefinement s userId refinedId with
    | none => (s, .error .notFoundOrForbidden)
    | some (r, l) =>
      match u.feedback, u.generatedText with
      | some _, some _ => (s, .error .bothProvided)
      | none, some t =>
        let upd := updateFirst (fun x => x.id == r.id)
          (fun x => { x with generatedText := t }) s.refinements
        ({ s with refinements := upd }, .ok { r with generatedText := t })
      | some fb, none =>
        match providerResult (recon r.generatedText fb l.text r.difficulty) with
        | .error _ => (s, .error .generationFailed)
        | .ok t =>
          let upd := updateFirst (fun x => x.id == r.id)
            (fun x => { x with generatedText := t }) s.refinements
          ({ s with refinements := upd }, .ok { r with generatedText := t })
      | none, none => (s, .error .missingFields)

/-- The full PATCH endpoint: marshmallow load, then the handler. -/
def patchEndpoint (s : Store) (userId refinedId : Nat) (u : RefinedUpdateInput)
    (recon : ReconProvider) : Store × Except ApiErr Refinement :=
  match loadRefinedUpdate u with
  | .error e => (s, .error e)
  | .ok u2 => patchRefinement s userId refinedId u2 recon

/-- Embeds `LabelResource.get` (src/resources/label.py lines 137-145):
`LabelModel.query.get_or_404(label_id)` — no user filter of any kind. -/
def getLabel (s : Store) (labelId : Nat) : Except ApiErr Label :=
  match s.labels.find? (fun l => l.id == labelId) with
  | some l => .ok l
  | none => .error .notFoundOrForbidden

/-- The GET `/labels/<id>` route as invoked over HTTP with an optional
credential: the route carries no `jwt_required` and its body never reads
the caller identity, so the credential is ignored. -/
def getLabelEndpoint (s : Store) (labelId : Nat) (_principal : Option Nat) :
    Except ApiErr Label :=
  getLabel s labelId

/-- Embeds `RefinedLabelResource.get` (src/resources/label.py lines 239-247):
refinement joined to its input label (no user filter), filtered by id,
`.first_or_404()`. -/
def getRefinedLabel (s : Store) (refinedId : Nat) : Except ApiErr Refinement :=
  match s.refinements.find?
      (fun r => r.id == refinedId && s.labels.any (fun l => l.id == r.inputLabelId)) with
  | some r => .ok r
  | none => .error .notFoundOrForbidden

/-- The GET `/refined_labels/<id>` route as invoked over HTTP with an
optional credential: no `jwt_required`, identity never read, credential
ignored. -/
def getRefinedLabelEndpoint (s : Store) (refinedId : Nat) (_principal : Option Nat) :
    Except ApiErr Refinement :=
  getRefinedLabel s refinedId

/-- Embeds `LabelManualResource.delete` (src/resources/label.py lines 213-231):
ownership lookup, then `db.session.delete(label)`; the
`cascade = "all, delete-orphan"` on `LabelModel.refinements`
(src/models/label.py lines 15-19) deletes every refinement whose
`input_label_id` is the deleted label's id in the same transaction. -/
def deleteLabel (s : Store) (userId labelId : Nat) : Store × Except ApiErr Unit :=
  match findOwnedLabel s userId labelId with
  | none => (s, .error .notFoundOrForbidden)
  | some label =>
    ({ s with
        labels := s.labels.filter (fun l => !(l.id == label.id)),
        refinements := s.refinements.filter (fun r => !(r.inputLabelId == label.id)) },
     .ok ())

/-- Embeds `ProjectResource.delete` (src/resources/project.py lines 105-118):
ownership lookup, then `db.session.delete(project)`; the cascades on
`ProjectModel.labels` (src/models/project.py line 16) and
`LabelModel.refinements` delete, in the same transaction, every label of
the project and every refinement of those labels. -/
def deleteProject (s : Store) (userId projectId : Nat) : Store × Except ApiErr Unit :=
  match findOwnedProject s userId projectId with
  | none => (s, .error .notFoundOrForbidden)
  | some p =>
    let deadLabels := s.labels.filter (fun l => l.projectId == p.id)
    ({ projects := s.projects.filter (fun q => !(q.id == p.id)),
       labels := s.labels.filter (fun l => !(l.projectId == p.id)),
       refinements :=
         s.refinements.filter (fun r => !(deadLabels.any (fun l => l.id == r.inputLabelId))) },
     .ok ())

/-- Two refinement rows collide on the upsert key when they agree on both
`input_label_id` and `difficulty`. -/
def sameKey (a b : Refinement) : Prop :=
  a.inputLabelId = b.inputLabelId ∧ a.difficulty = b.difficulty

instance : ∀ a b, Decidable (sameKey a b) := fun a b => by
  unfold sameKey
  infer_instance

/-- The spec invariant: at most one refinement row per (label, difficulty). -/
def AtMostOnePerKey (s : Store) : Prop :=
  s.refinements.Pairwise (fun a b => ¬ sameKey a b)

instance : ∀ s, Decidable (AtMostOnePerKey s) := fun s => by
  unfold AtMostOnePerKey
  infer_instance

/-- All stored refinement rows for a given (label, difficulty) pair. -/
def refinementsFor (s : Store) (labelId : Nat) (d : String) : List Refinement :=
  s.refinements.filter (fun r => r.inputLabelId == labelId && r.difficulty == d)

/-! ### Concrete fixtures used by witnesses and counterexamples -/

/-- A store holding one project of user 7, one label, and one refinement
for that label at difficulty simple. -/
def demoStore : Store :=
  { projects := [{ id := 1, name := "proj", description := "desc", userId := 7 }],
    labels := [{ id := 1, text := "valid", projectId := 1 }],
    refinements := [{ id := 100, generatedText := "t1", difficulty := "simple", inputLabelId := 1 }] }

/-- A store holding one project of user 7 and no labels. -/
def emptyProjectStore : Store :=
  { projects := [{ id := 1, name := "proj", description := "desc", userId := 7 }],
    labels := [],
    refinements := [] }

/-- A store holding one project of user 7 with one label and no refinements. -/
def noRefStore : Store :=
  { projects := [{ id := 1, name := "proj", description := "desc", userId := 7 }],
    labels := [{ id := 1, text := "valid", projectId := 1 }],
    refinements := [] }

/-- A store holding one project of user 7 with eight labels. -/
def eightLabelStore : Store :=
  { projects := [{ id := 1, name := "proj", description := "desc", userId := 7 }],
    labels := [{ id := 1, text := "l1", projectId := 1 }, { id := 2, text := "l2", projectId := 1 },
      { id := 3, text := "l3", projectId := 1 }, { id := 4, text := "l4", projectId := 1 },
      { id := 5, text := "l5", projectId := 1 }, { id := 6, text := "l6", projectId := 1 },
      { id := 7, text := "l7", projectId := 1 }, { id := 8, text := "l8", projectId := 1 }],
    refinements := [] }

/-- A generation provider whose model always returns the same text. -/
def providerConst (t : String) : GenProvider := fun _ _ _ _ => .text t

/-- A generation provider whose model call always raises. -/
def providerFailing : GenProvider := fun _ _ _ _ => .fail

/-- A reconstruction provider whose model always returns the same text. -/
def reconConst (t : String) : ReconProvider := fun _ _ _ _ => .text t

/-- A reconstruction provider whose model call always raises. -/
def reconFailing : ReconProvider := fun _ _ _ _ => .fail

/-! ### List-level helper lemmas -/

theorem mem_updateFirst {p : α → Bool} {f : α → α} :
    ∀ {l : List α} {y : α}, y ∈ updateFirst p f l → y ∈ l ∨ ∃ x ∈ l, p x = true ∧ y = f x := by
  intro l
  induction l with
  | nil => intro y h; simp [updateFirst] at h
  | cons x xs ih =>
    intro y h
    by_cases hx : p x = true
    · simp [updateFirst, hx] at h
      rcases h with h | h
      · exact Or.inr ⟨x, by simp, hx, h⟩
      · exact Or.inl (List.mem_cons_of_mem _ h)
    · simp [updateFirst, hx] at h
      rcases h with h | h
      · exact Or.inl (by simp [h])
      · rcases ih h with h2 | ⟨z, hz, hpz, hy⟩
        · exact Or.inl (List.mem_cons_of_mem _ h2)
        · exact Or.inr ⟨z, List.mem_cons_of_mem _ hz, hpz, hy⟩

theorem updateFirst_pairwise {R : α → α → Prop} {p : α → Bool} {f : α → α}
    (hf₁ : ∀ a b, R a b → R (f a) b) (hf₂ : ∀ a b, R a b → R a (f b)) :
    ∀ {l : List α}, l.Pairwise R → (updateFirst p f l).Pairwise R := by
  intro l
  induction l with
  | nil => intro h; exact h
  | cons x xs ih =>
    intro h
    rcases List.pairwise_cons.mp h with ⟨hx, hxs⟩
    by_cases hpx : p x = true
    · simp only [updateFirst, hpx, if_true]
      exact List.pairwise_cons.mpr ⟨fun y hy => hf₁ _ _ (hx y hy), hxs⟩
    · simp only [updateFirst, hpx, if_false]
      refine List.pairwise_cons.mpr ⟨?_, ih hxs⟩
      intro y hy
      rcases mem_updateFirst hy with h2 | ⟨z, hz, _, rfl⟩
      · exact hx y h2
      · exact hf₂ _ _ (hx z hz)

theorem filter_eq_nil_of_find?_eq_none {p : α → Bool} {l : List α}
    (h : l.find? p = none) : l.filter p = [] := by
  rw [List.filter_eq_nil_iff]
  intro a ha
  have := List.find?_eq_none.mp h a ha
  simpa using this

theorem find?_append_none {p : α → Bool} {l₁ l₂ : List α} (h : l₁.find? p = none) :
    (l₁ ++ l₂).find? p = l₂.find? p := by
  induction l₁ with
  | nil => simp
  | cons x xs ih =>
    by_cases hx : p x = true
    · rw [List.find?_cons_of_pos _ hx] at h
      exact absurd h (by simp)
    · rw [List.find?_cons_of_neg _ hx] at h
      rw [List.cons_append, List.find?_cons_of_neg _ hx]
      exact ih h

theorem pairwise_append_singleton {R : α → α → Prop} {l : List α} {x : α}
    (h : l.Pairwise R) (hx : ∀ y ∈ l, R y x) : (l ++ [x]).Pairwise R := by
  rw [List.pairwise_append]
  exact ⟨h, List.pairwise_singleton R x, by simpa using hx⟩

theorem filter_updateFirst_key {key : α → Bool} {f : α → α}
    (hfkey : ∀ x, key (f x) = key x) {R : α → α → Prop}
    (hkR : ∀ a b, key a = true → key b = true → R a b → False) :
    ∀ {l : List α} {r0 : α}, l.Pairwise R → l.find? key = some r0 →
      (updateFirst key f l).filter key = [f r0] := by
  intro l
  induction l with
  | nil => intro r0 _ hfind; simp at hfind
  | cons x xs ih =>
    intro r0 hpw hfind
    rcases List.pairwise_cons.mp hpw with ⟨hx, hxs⟩
    by_cases hkx : key x = true
    · rw [List.find?_cons_of_pos _ hkx] at hfind
      cases hfind
      have hnil : xs.filter key = [] := by
        rw [List.filter_eq_nil_iff]
        intro a ha hka
        exact hkR x a hkx hka (hx a ha)
      simp [updateFirst, hkx, List.filter_cons, hfkey x, hnil]
    · rw [List.find?_cons_of_neg _ hkx] at hfind
      have hkx2 : key x = false := by simpa using hkx
      simp only [updateFirst, hkx2, if_false, List.filter_cons, Bool.false_eq_true]
      exact ih hxs hfind

theorem find?_updateFirst_key {key : α → Bool} {f : α → α}
    (hfkey : ∀ x, key (f x) = key x) :
    ∀ {l : List α} {r0 : α}, l.find? key = some r0 →
      (updateFirst key f l).find? key = some (f r0) := by
  intro l
  induction l with
  | nil => intro r0 hfind; simp at hfind
  | cons x xs ih =>
    intro r0 hfind
    by_cases hkx : key x = true
    · rw [List.find?_cons_of_pos _ hkx] at hfind
      cases hfind
      have : key (f x) = true := by rw [hfkey x]; exact hkx
      simp [updateFirst, hkx, List.find?_cons_of_pos _ this]
    · rw [List.find?_cons_of_neg _ hkx] at hfind
      have hkx2 : key x = false := by simpa using hkx
      simp only [updateFirst, hkx2, if_false, Bool.false_eq_true]
      rw [List.find?_cons_of_neg _ hkx]
      exact ih hfind

theorem eq_of_pairwise_key_ne {g : α → Nat} :
    ∀ {l : List α}, l.Pairwise (fun a b => g a ≠ g b) →
      ∀ {x y : α}, x ∈ l → y ∈ l → g x = g y → x = y := by
  intro l
  induction l with
  | nil => intro _ x y hx; simp at hx
  | cons a as ih =>
    intro hpw x y hx hy hg
    rcases List.pairwise_cons.mp hpw with ⟨ha, has⟩
    rcases List.mem_cons.mp hx with rfl | hx2
    · rcases List.mem_cons.mp hy with rfl | hy2
      · rfl
      · exact absurd hg (ha y hy2)
    · rcases List.mem_cons.mp hy with rfl | hy2
      · exact absurd hg.symm (ha x hx2)
      · exact ih has hx2 hy2 hg

/-! ### Congruence and shape lemmas for the operations -/

theorem findOwnedLabel_congr {s1 s2 : Store} (hl : s1.labels = s2.labels)
    (hp : s1.projects = s2.projects) (uid lid : Nat) :
    findOwnedLabel s1 uid lid = findOwnedLabel s2 uid lid := by
  unfold findOwnedLabel ownsLabel
  rw [hl, hp]

theorem projectOf_congr {s1 s2 : Store} (hp : s1.projects = s2.projects) (l : Label) :
    projectOf s1 l = projectOf s2 l := by
  unfold projectOf
  rw [hp]

theorem addLabels_refinements_eq (s : Store) (uid pid : Nat) (texts : List String) (n : Nat) :
    (addLabels s uid pid texts n).1.refinements = s.refinements := by
  unfold addLabels
  split
  · rfl
  · cases hp : findOwnedProject s uid pid
    · rfl
    · simp only
      split
      · rfl
      · rfl

theorem generate_labels_projects_eq (s : Store) (uid lid : Nat) (d : String)
    (g : GenProvider) (n : Nat) :
    (generate s uid lid d g n).1.labels = s.labels ∧
      (generate s uid lid d g n).1.projects = s.projects := by
  unfold generate
  cases hL : findOwnedLabel s uid lid
  · exact ⟨rfl, rfl⟩
  · simp only
    split
    · exact ⟨rfl, rfl⟩
    · split
      · exact ⟨rfl, rfl⟩
      · exact ⟨rfl, rfl⟩
      · exact ⟨rfl, rfl⟩

theorem setManualText_labels_projects_eq (s : Store) (uid lid : Nat) (d tx : String) (n : Nat) :
    (setManualText s uid lid d tx n).1.labels = s.labels ∧
      (setManualText s uid lid d tx n).1.projects = s.projects := by
  unfold setManualText
  cases hL : findOwnedLabel s uid lid
  · exact ⟨rfl, rfl⟩
  · simp only
    split
    · exact ⟨rfl, rfl⟩
    · split
      · exact ⟨rfl, rfl⟩
      · split
        · exact ⟨rfl, rfl⟩
        · exact ⟨rfl, rfl⟩

/-! ### Upsert lemmas on the refinements table -/

theorem refinementKey_of_find?_some {refs : List Refinement} {lid : Nat} {d : String}
    {r0 : Refinement}
    (hfind : refs.find? (fun r => r.inputLabelId == lid && r.difficulty == d) = some r0) :
    r0.inputLabelId = lid ∧ r0.difficulty = d := by
  have := List.find?_some hfind
  simpa using this

theorem upsert_update_case {refs : List Refinement} {lid : Nat} {d t : String} {r0 : Refinement}
    (hinv : refs.Pairwise (fun a b => ¬ sameKey a b))
    (hfind : refs.find? (fun r => r.inputLabelId == lid && r.difficulty == d) = some r0) :
    (updateFirst (fun r => r.inputLabelId == lid && r.difficulty == d)
        (fun r => { r with generatedText := t }) refs).filter
      (fun r => r.inputLabelId == lid && r.difficulty == d) = [{ r0 with generatedText := t }] ∧
    (updateFirst (fun r => r.inputLabelId == lid && r.difficulty == d)
        (fun r => { r with generatedText := t }) refs).find?
      (fun r => r.inputLabelId == lid && r.difficulty == d) = some { r0 with generatedText := t } ∧
    (updateFirst (fun r => r.inputLabelId == lid && r.difficulty == d)
        (fun r => { r with generatedText := t }) refs).Pairwise (fun a b => ¬ sameKey a b) := by
  have hfkey : ∀ x : Refinement,
      ((fun r : Refinement => r.inputLabelId == lid && r.difficulty == d)
        ({ x with generatedText := t })) =
      ((fun r : Refinement => r.inputLabelId == lid && r.difficulty == d) x) := fun x => rfl
  have hkR : ∀ a b : Refinement, (a.inputLabelId == lid && a.difficulty == d) = true →
      (b.inputLabelId == lid && b.difficulty == d) = true → ¬ sameKey a b → False := by
    intro a b ha hb hn
    simp only [Bool.and_eq_true, beq_iff_eq] at ha hb
    exact hn ⟨ha.1.trans hb.1.symm, ha.2.trans hb.2.symm⟩
  refine ⟨filter_updateFirst_key hfkey hkR hinv hfind, find?_updateFirst_key hfkey hfind, ?_⟩
  refine updateFirst_pairwise ?_ ?_ hinv
  · intro a b hab hs
    exact hab ⟨hs.1, hs.2⟩
  · intro a b hab hs
    exact hab ⟨hs.1, hs.2⟩

theorem upsert_create_case {refs : List Refinement} {lid n : Nat} {d t : String}
    (hfind : refs.find? (fun r => r.inputLabelId == lid && r.difficulty == d) = none) :
    (refs ++ [({ id := n, generatedText := t, difficulty := d, inputLabelId := lid } : Refinement)]).filter
      (fun r => r.inputLabelId == lid && r.difficulty == d) =
      [({ id := n, generatedText := t, difficulty := d, inputLabelId := lid } : Refinement)] ∧
    (refs ++ [({ id := n, generatedText := t, difficulty := d, inputLabelId := lid } : Refinement)]).find?
      (fun r => r.inputLabelId == lid && r.difficulty == d) =
      some ({ id := n, generatedText := t, difficulty := d, inputLabelId := lid } : Refinement) ∧
    (refs.Pairwise (fun a b => ¬ sameKey a b) →
      (refs ++ [({ id := n, generatedText := t, difficulty := d, inputLabelId := lid } : Refinement)]).Pairwise
        (fun a b => ¬ sameKey a b)) := by
  refine ⟨?_, ?_, ?_⟩
  · rw [List.filter_append, filter_eq_nil_of_find?_eq_none hfind]
    simp
  · rw [find?_append_none hfind]
    simp [List.find?]
  · intro hinv
    refine pairwise_append_singleton hinv ?_
    intro y hy hs
    have hkey := List.find?_eq_none.mp hfind y hy
    simp only [Bool.and_eq_true, beq_iff_eq, not_and] at hkey
    exact hkey hs.1 hs.2

/-! ### Success and failure shapes of generate and setManualText -/

theorem generate_ok_spec (s : Store) (uid lid n : Nat) (d : String) (g : GenProvider)
    (L : Label) (t : String)
    (hinv : AtMostOnePerKey s)
    (hL : findOwnedLabel s uid lid = some L)
    (hd : validDifficulty d = true)
    (ht : providerResult (g L.text d ((projectOf s L).map Project.name)
      ((projectOf s L).map Project.description)) = .ok t) :
    ∃ r : Refinement,
      (generate s uid lid d g n).2 = .ok r ∧
      r.generatedText = t ∧
      refinementsFor (generate s uid lid d g n).1 L.id d = [r] ∧
      findRefinementByKey (generate s uid lid d g n).1 L.id d = some r ∧
      AtMostOnePerKey (generate s uid lid d g n).1 := by
  unfold generate
  rw [hL]
  simp only [hd, Bool.not_true, Bool.false_eq_true, if_false]
  rw [ht]
  cases hex : findRefinementByKey s L.id d with
  | some r0 =>
    have h := upsert_update_case (t := t) hinv hex
    exact ⟨{ r0 with generatedText := t }, rfl, rfl, h.1, h.2.1, h.2.2⟩
  | none =>
    have h := upsert_create_case (n := n) (t := t) hex
    exact ⟨{ id := n, generatedText := t, difficulty := d, inputLabelId := L.id },
      rfl, rfl, h.1, h.2.1, h.2.2 hinv⟩

theorem generate_fail_spec (s : Store) (uid lid n : Nat) (d : String) (g : GenProvider)
    (L : Label)
    (hL : findOwnedLabel s uid lid = some L)
    (hd : validDifficulty d = true)
    (ht : providerResult (g L.text d ((projectOf s L).map Project.name)
      ((projectOf s L).map Project.description)) = .error ()) :
    generate s uid lid d g n = (s, .error .generationFailed) := by
  unfold generate
  rw [hL]
  simp only [hd, Bool.not_true, Bool.false_eq_true, if_false]
  rw [ht]
  cases hex : findRefinementByKey s L.id d <;> rfl

theorem setManualText_short_spec (s : Store) (uid lid n : Nat) (d rawText : String)
    (L : Label)
    (hL : findOwnedLabel s uid lid = some L)
    (hd : validDifficulty d = true)
    (hlen : (pyStrip rawText).length < 5) :
    setManualText s uid lid d rawText n = (s, .error .textTooShort) := by
  unfold setManualText
  rw [hL]
  simp only [hd, Bool.not_true, Bool.false_eq_true, if_false, hlen, if_true]

theorem setManualText_ok_spec (s : Store) (uid lid n : Nat) (d rawText : String)
    (L : Label)
    (hinv : AtMostOnePerKey s)
    (hL : findOwnedLabel s uid lid = some L)
    (hd : validDifficulty d = true)
    (hlen : ¬ (pyStrip rawText).length < 5) :
    ∃ r : Refinement,
      (setManualText s uid lid d rawText n).2 = .ok r ∧
      r.generatedText = pyStrip rawText ∧
      refinementsFor (setManualText s uid lid d rawText n).1 L.id d = [r] ∧
      findRefinementByKey (setManualText s uid lid d rawText n).1 L.id d = some r ∧
      AtMostOnePerKey (setManualText s uid lid d rawText n).1 ∧
      (∀ r0, findRefinementByKey s L.id d = some r0 → r.id = r0.id) ∧
      (findRefinementByKey s L.id d = none → r.id = n) := by
  unfold setManualText
  rw [hL]
  simp only [hd, Bool.not_true, Bool.false_eq_true, if_false, hlen]
  cases hex : findRefinementByKey s L.id d with
  | some r0 =>
    have h := upsert_update_case (t := pyStrip rawText) hinv hex
    refine ⟨{ r0 with generatedText := pyStrip rawText }, rfl, rfl, h.1, h.2.1, h.2.2, ?_, ?_⟩
    · intro r1 hr1
      cases hr1
      rfl
    · intro hnone
      cases hnone
  | none =>
    have h := upsert_create_case (n := n) (t := pyStrip rawText) hex
    refine ⟨{ id := n, generatedText := pyStrip rawText, difficulty := d, inputLabelId := L.id },
      rfl, rfl, h.1, h.2.1, h.2.2 hinv, ?_, fun _ => rfl⟩
    intro r1 hr1
    cases hr1

/-! ### Preservation of the at-most-one-per-key invariant -/

theorem addLabels_preserves_inv (s : Store) (uid pid n : Nat) (texts : List String)
    (hinv : AtMostOnePerKey s) : AtMostOnePerKey (addLabels s uid pid texts n).1 := by
  unfold AtMostOnePerKey at hinv ⊢
  rw [addLabels_refinements_eq]
  exact hinv

theorem pairwise_notSameKey_updateFirst {p : Refinement → Bool} {t : String}
    {refs : List Refinement} (hinv : refs.Pairwise (fun a b => ¬ sameKey a b)) :
    (updateFirst p (fun r => { r with generatedText := t }) refs).Pairwise
      (fun a b => ¬ sameKey a b) := by
  refine updateFirst_pairwise ?_ ?_ hinv
  · intro a b hab hs
    exact hab ⟨hs.1, hs.2⟩
  · intro a b hab hs
    exact hab ⟨hs.1, hs.2⟩

theorem generate_preserves_inv (s : Store) (uid lid n : Nat) (d : String) (g : GenProvider)
    (hinv : AtMostOnePerKey s) : AtMostOnePerKey (generate s uid lid d g n).1 := by
  unfold generate
  cases hL : findOwnedLabel s uid lid with
  | none => exact hinv
  | some L =>
    simp only
    split
    · exact hinv
    · cases hex : findRefinementByKey s L.id d with
      | some r0 =>
        cases hp : providerResult (g L.text d ((projectOf s L).map Project.name)
            ((projectOf s L).map Project.description)) with
        | error e => cases e; exact hinv
        | ok t => exact pairwise_notSameKey_updateFirst hinv
      | none =>
        cases hp : providerResult (g L.text d ((projectOf s L).map Project.name)
            ((projectOf s L).map Project.description)) with
        | error e => cases e; exact hinv
        | ok t => exact (upsert_create_case (n := n) (t := t) hex).2.2 hinv

theorem setManualText_preserves_inv (s : Store) (uid lid n : Nat) (d rawText : String)
    (hinv : AtMostOnePerKey s) : AtMostOnePerKey (setManualText s uid lid d rawText n).1 := by
  unfold setManualText
  cases hL : findOwnedLabel s uid lid with
  | none => exact hinv
  | some L =>
    simp only
    split
    · exact hinv
    · split
      · exact hinv
      · cases hex : findRefinementByKey s L.id d with
        | some r0 => exact pairwise_notSameKey_updateFirst hinv
        | none => exact (upsert_create_case (n := n) (t := pyStrip rawText) hex).2.2 hinv

theorem patchRefinement_preserves_inv (s : Store) (uid rid : Nat) (u : RefinedUpdateInput)
    (rc : ReconProvider) (hinv : AtMostOnePerKey s) :
    AtMostOnePerKey (patchRefinement s uid rid u rc).1 := by
  unfold patchRefinement
  split
  · exact hinv
  · cases hR : findOwnedRefinement s uid rid with
    | none => exact hinv
    | some rl =>
      obtain ⟨r, l⟩ := rl
      simp only
      cases hf : u.feedback with
      | some fb =>
        cases hg : u.generatedText with
        | some t => exact hinv
        | none =>
          cases hp : providerResult (rc r.generatedText fb l.text r.difficulty) with
          | error e =>
            simp only [hp]
            exact hinv
          | ok t =>
            simp only [hp]
            exact pairwise_notSameKey_updateFirst hinv
      | none =>
        cases hg : u.generatedText with
        | some t => exact pairwise_notSameKey_updateFirst hinv
        | none => exact hinv

theorem patchEndpoint_preserves_inv (s : Store) (uid rid : Nat) (u : RefinedUpdateInput)
    (rc : ReconProvider) (hinv : AtMostOnePerKey s) :
    AtMostOnePerKey (patchEndpoint s uid rid u rc).1 := by
  unfold patchEndpoint
  cases hu : loadRefinedUpdate u with
  | error e => exact hinv
  | ok u2 => exact patchRefinement_preserves_inv s uid rid u2 rc hinv

theorem deleteLabel_preserves_inv (s : Store) (uid lid : Nat)
    (hinv : AtMostOnePerKey s) : AtMostOnePerKey (deleteLabel s uid lid).1 := by
  unfold deleteLabel
  cases hL : findOwnedLabel s uid lid with
  | none => exact hinv
  | some L => exact List.Pairwise.sublist (List.filter_sublist _) hinv

theorem deleteProject_preserves_inv (s : Store) (uid pid : Nat)
    (hinv : AtMostOnePerKey s) : AtMostOnePerKey (deleteProject s uid pid).1 := by
  unfold deleteProject
  cases hp : findOwnedProject s uid pid with
  | none => exact hinv
  | some p => exact List.Pairwise.sublist (List.filter_sublist _) hinv

/-! ### addLabels and lookup helper lemmas -/

theorem validAddLabelsPayload_false_of_mem_blank {texts : List String} (h : "" ∈ texts) :
    validAddLabelsPayload texts = false := by
  cases hv : validAddLabelsPayload texts
  · rfl
  · exfalso
    unfold validAddLabelsPayload at hv
    simp only [Bool.and_eq_true, List.all_eq_true, decide_eq_true_eq] at hv
    have hlen := (hv.2 "" h).1
    simp at hlen

theorem addLabels_schema_reject (s : Store) (uid pid n : Nat) (texts : List String)
    (h : validAddLabelsPayload texts = false) :
    addLabels s uid pid texts n = (s, .error .schemaRejected) := by
  unfold addLabels
  rw [h]
  rfl

theorem addLabels_cap_reject (s : Store) (uid pid n : Nat) (texts : List String) (p : Project)
    (hv : validAddLabelsPayload texts = true)
    (hp : findOwnedProject s uid pid = some p)
    (hcap : labelCount s p.id + texts.length ≥ MAX_LABELS) :
    addLabels s uid pid texts n = (s, .error .limitExceeded) := by
  unfold addLabels
  rw [hv, hp]
  simp only [Bool.not_true, Bool.false_eq_true, if_false]
  rw [if_pos hcap]

theorem addLabels_success (s : Store) (uid pid n : Nat) (texts : List String) (p : Project)
    (hv : validAddLabelsPayload texts = true)
    (hp : findOwnedProject s uid pid = some p)
    (hcap : labelCount s p.id + texts.length < MAX_LABELS) :
    addLabels s uid pid texts n =
      ({ s with labels := s.labels ++ mkLabels p.id n texts }, .ok (mkLabels p.id n texts)) := by
  unfold addLabels
  rw [hv, hp]
  simp only [Bool.not_true, Bool.false_eq_true, if_false]
  rw [if_neg (by omega)]

theorem mkLabels_map_text (pid : Nat) :
    ∀ (ts : List String) (n : Nat), (mkLabels pid n ts).map Label.text = ts := by
  intro ts
  induction ts with
  | nil => intro n; rfl
  | cons t ts ih =>
    intro n
    simp only [mkLabels, List.map_cons, ih]

theorem mkLabels_length (pid : Nat) (ts : List String) (n : Nat) :
    (mkLabels pid n ts).length = ts.length := by
  have := congrArg List.length (mkLabels_map_text pid ts n)
  simpa using this

theorem getLabel_none_of (s2 : Store) (i : Nat)
    (h : ∀ x ∈ s2.labels, (x.id == i) = false) :
    getLabel s2 i = .error .notFoundOrForbidden := by
  unfold getLabel
  rw [List.find?_eq_none.mpr (by intro x hx; simp [h x hx])]

theorem getRefinedLabel_none_of (s2 : Store) (i : Nat)
    (h : ∀ x ∈ s2.refinements, (x.id == i) = false) :
    getRefinedLabel s2 i = .error .notFoundOrForbidden := by
  unfold getRefinedLabel
  rw [List.find?_eq_none.mpr (by intro x hx; simp [h x hx])]

/-! ### Claim theorems -/

/-- C2: if the generation provider fails (or returns empty text, which the
adapter turns into the same `ConnectionError`) during generate(L, D) on an
owned label with a valid difficulty, the operation surfaces the generation
failure and leaves the store exactly as it was before the call; in
particular the refinements stored for (L, D) are unchanged. -/
theorem C2_generate_failure_rollback (s : Store) (uid lid n : Nat) (d : String)
    (g : GenProvider) (L : Label)
    (hL : findOwnedLabel s uid lid = some L)
    (hd : validDifficulty d = true)
    (hfail : providerResult (g L.text d ((projectOf s L).map Project.name)
      ((projectOf s L).map Project.description)) = .error ()) :
    generate s uid lid d g n = (s, .error .generationFailed) ∧
    refinementsFor (generate s uid lid d g n).1 L.id d = refinementsFor s L.id d := by
  have h := generate_fail_spec s uid lid n d g L hL hd hfail
  exact ⟨h, by rw [h]⟩

/-- Witness for C2: a raising provider and an empty-text provider both roll
back, on a store that already holds a refinement for the key. -/
theorem C2_witness :
    generate demoStore 7 1 "simple" providerFailing 200 =
      (demoStore, .error .generationFailed) ∧
    generate demoStore 7 1 "simple" (providerConst "") 200 =
      (demoStore, .error .generationFailed) :=
  ⟨(C2_generate_failure_rollback demoStore 7 1 200 "simple" providerFailing
      { id := 1, text := "valid", projectId := 1 } rfl rfl rfl).1,
   (C2_generate_failure_rollback demoStore 7 1 200 "simple" (providerConst "")
      { id := 1, text := "valid", projectId := 1 } rfl rfl rfl).1⟩

/-- C3: a PATCH carrying only generatedText and no feedback can never
succeed: `RefinedLabelUpdateSchema` declares `feedback` as required, so the
request dies at schema validation (HTTP 422) even for an owned refinement,
and the handler's manual-edit branch is unreachable — contradicting the
exactly-one-of contract the handler itself implements. -/
theorem C3_patch_textOnly_rejected :
    loadRefinedUpdate { feedback := none, generatedText := some "edited text" } =
      .error .schemaRejected ∧
    patchEndpoint demoStore 7 100 { feedback := none, generatedText := some "edited text" }
      reconFailing = (demoStore, .error .schemaRejected) ∧
    ApiErr.schemaRejected.status = 422 :=
  ⟨rfl, rfl, rfl⟩

/-- C4 counterexample: with texts = ["", "  ", "valid"] the request is
rejected whole at schema validation (the empty entry fails the raw length
1..100 bound) and zero labels are created, instead of succeeding with
exactly one label as claimed. -/
theorem C4_counter_blank_batch_rejected :
    addLabels demoStore 7 1 ["", "  ", "valid"] 10 =
      (demoStore, .error .schemaRejected) := rfl

/-- C4 (amended): an entry of raw length 0 makes addLabels reject the whole
request at schema validation, creating no labels, in any store; entries are
neither trimmed nor dropped: a whitespace-only entry of positive raw length
is accepted and stored verbatim, so ["  ", "valid"] creates two labels, one
with text "  ". -/
theorem C4_amended_blank_entries (s : Store) (uid pid n : Nat) (p : Project)
    (hp : findOwnedProject s uid pid = some p)
    (hcap : labelCount s p.id + 2 < MAX_LABELS) :
    (∀ texts : List String, "" ∈ texts →
       addLabels s uid pid texts n = (s, .error .schemaRejected)) ∧
    addLabels s uid pid ["  ", "valid"] n =
      ({ s with labels := s.labels ++
          [{ id := n, text := "  ", projectId := p.id },
           { id := n + 1, text := "valid", projectId := p.id }] },
       .ok [{ id := n, text := "  ", projectId := p.id },
            { id := n + 1, text := "valid", projectId := p.id }]) := by
  constructor
  · intro texts hmem
    exact addLabels_schema_reject s uid pid n texts
      (validAddLabelsPayload_false_of_mem_blank hmem)
  · exact addLabels_success s uid pid n ["  ", "valid"] p rfl hp hcap

/-- Witness for C4: on the one-project empty store, [""] is rejected and
["  ", "valid"] creates two labels, one of them whitespace-only. -/
theorem C4_witness :
    addLabels emptyProjectStore 7 1 [""] 50 =
      (emptyProjectStore, .error .schemaRejected) ∧
    addLabels emptyProjectStore 7 1 ["  ", "valid"] 50 =
      ({ emptyProjectStore with labels :=
          [{ id := 50, text := "  ", projectId := 1 },
           { id := 51, text := "valid", projectId := 1 }] },
       .ok [{ id := 50, text := "  ", projectId := 1 },
            { id := 51, text := "valid", projectId := 1 }]) :=
  ⟨(C4_amended_blank_entries emptyProjectStore 7 1 50
      { id := 1, name := "proj", description := "desc", userId := 7 } rfl (by decide)).1
      [""] (by decide),
   (C4_amended_blank_entries emptyProjectStore 7 1 50
      { id := 1, name := "proj", description := "desc", userId := 7 } rfl (by decide)).2⟩

/-- C5: the GET label and GET refined-label endpoints carry no
authentication and no ownership filter: the result is identical for any two
principals (or none at all), and whenever the looked-up record exists it is
returned to any caller. -/
theorem C5_public_reads (s : Store) (lid rid : Nat) :
    (∀ p1 p2 : Option Nat, getLabelEndpoint s lid p1 = getLabelEndpoint s lid p2) ∧
    (∀ p1 p2 : Option Nat,
       getRefinedLabelEndpoint s rid p1 = getRefinedLabelEndpoint s rid p2) ∧
    (∀ l : Label, s.labels.find? (fun x => x.id == lid) = some l →
       ∀ cred : Option Nat, getLabelEndpoint s lid cred = .ok l) ∧
    (∀ r : Refinement,
       s.refinements.find? (fun x => x.id == rid &&
         s.labels.any (fun y => y.id == x.inputLabelId)) = some r →
       ∀ cred : Option Nat, getRefinedLabelEndpoint s rid cred = .ok r) := by
  refine ⟨fun _ _ => rfl, fun _ _ => rfl, ?_, ?_⟩
  · intro l hl cred
    unfold getLabelEndpoint getLabel
    rw [hl]
  · intro r hr cred
    unfold getRefinedLabelEndpoint getRefinedLabel
    rw [hr]

/-- Witness for C5: an anonymous caller reads the user-7 label, and a
different authenticated user reads the user-7 refinement. -/
theorem C5_witness :
    getLabelEndpoint demoStore 1 none = .ok { id := 1, text := "valid", projectId := 1 } ∧
    getRefinedLabelEndpoint demoStore 100 (some 999) =
      .ok { id := 100, generatedText := "t1", difficulty := "simple", inputLabelId := 1 } :=
  ⟨(C5_public_reads demoStore 1 100).2.2.1 _ rfl none,
   (C5_public_reads demoStore 1 100).2.2.2 _ rfl (some 999)⟩

/-- C6: when the project's current label count plus the batch size reaches
or exceeds MAX_LABELS = 10, addLabels fails with the limit error and the
post-state is exactly the pre-state — the cap check runs before any label
is written. -/
theorem C6_cap_reached_rejected (s : Store) (uid pid n : Nat) (texts : List String)
    (p : Project)
    (hv : validAddLabelsPayload texts = true)
    (hp : findOwnedProject s uid pid = some p)
    (hcap : labelCount s p.id + texts.length ≥ MAX_LABELS) :
    addLabels s uid pid texts n = (s, .error .limitExceeded) :=
  addLabels_cap_reject s uid pid n texts p hv hp hcap

/-- Witness for C6: eight existing labels and a three-entry batch are
rejected with zero labels persisted. -/
theorem C6_witness :
    addLabels eightLabelStore 7 1 ["a", "b", "c"] 20 =
      (eightLabelStore, .error .limitExceeded) :=
  C6_cap_reached_rejected eightLabelStore 7 1 20 ["a", "b", "c"]
    { id := 1, name := "proj", description := "desc", userId := 7 } rfl rfl (by decide)

/-- C7 counterexample: a 10-entry batch passes schema validation, yet on a
project with zero existing labels it is rejected by the cap check (which
fires at `>= 10`), so the claimed success at a total of exactly 10 is
false. -/
theorem C7_counter_ten_batch :
    validAddLabelsPayload ["a", "b", "c", "d", "e", "f", "g", "h", "i", "j"] = true ∧
    labelCount emptyProjectStore 1 = 0 ∧
    addLabels emptyProjectStore 7 1 ["a", "b", "c", "d", "e", "f", "g", "h", "i", "j"] 1 =
      (emptyProjectStore, .error .limitExceeded) :=
  ⟨rfl, rfl, rfl⟩

/-- C7 (amended): schema-valid batches of 1-10 entries reach the cap check,
which rejects any batch bringing the total to 10 or more; a batch succeeds,
creating its labels in input order with consecutive ids, exactly when the
resulting total is at most 9 — so at most 9 labels can ever be added to a
project through this endpoint. -/
theorem C7_amended_success_below_ten (s : Store) (uid pid n : Nat) (texts : List String)
    (p : Project)
    (hv : validAddLabelsPayload texts = true)
    (hp : findOwnedProject s uid pid = some p) :
    (labelCount s p.id + texts.length < MAX_LABELS →
       addLabels s uid pid texts n =
         ({ s with labels := s.labels ++ mkLabels p.id n texts }, .ok (mkLabels p.id n texts)) ∧
       (mkLabels p.id n texts).map Label.text = texts) ∧
    (labelCount s p.id + texts.length ≥ MAX_LABELS →
       addLabels s uid pid texts n = (s, .error .limitExceeded)) := by
  constructor
  · intro hcap
    exact ⟨addLabels_success s uid pid n texts p hv hp hcap, mkLabels_map_text p.id texts n⟩
  · intro hcap
    exact addLabels_cap_reject s uid pid n texts p hv hp hcap

/-- Witness for C7: a nine-entry batch into an empty project succeeds and
creates the nine labels in input order. -/
theorem C7_witness :
    addLabels emptyProjectStore 7 1 ["a", "b", "c", "d", "e", "f", "g", "h", "i"] 1 =
      ({ emptyProjectStore with
          labels := mkLabels 1 1 ["a", "b", "c", "d", "e", "f", "g", "h", "i"] },
       .ok (mkLabels 1 1 ["a", "b", "c", "d", "e", "f", "g", "h", "i"])) ∧
    (mkLabels 1 1 ["a", "b", "c", "d", "e", "f", "g", "h", "i"]).map Label.text =
      ["a", "b", "c", "d", "e", "f", "g", "h", "i"] :=
  (C7_amended_success_below_ten emptyProjectStore 7 1 1
    ["a", "b", "c", "d", "e", "f", "g", "h", "i"]
    { id := 1, name := "proj", description := "desc", userId := 7 } rfl rfl).1 (by decide)

/-- C9 counterexample: setManualText stores the stripped text, not the
caller-supplied value: with t = "  hello  " on an owned label the (L,
simple) row ends up with text "hello", which differs from t. -/
theorem C9_counter_stores_stripped :
    refinementsFor (setManualText demoStore 7 1 "simple" "  hello  " 10).1 1 "simple" =
      [{ id := 100, generatedText := "hello", difficulty := "simple", inputLabelId := 1 }] ∧
    (setManualText demoStore 7 1 "simple" "  hello  " 10).2 =
      .ok { id := 100, generatedText := "hello", difficulty := "simple", inputLabelId := 1 } ∧
    ("hello" : String) ≠ "  hello  " :=
  ⟨by decide, rfl, by decide⟩

/-- C9 (amended): for an owned label and valid difficulty, if the stripped
text has fewer than 5 characters setManualText fails with the too-short
error and the post-state is the pre-state; otherwise it upserts the
stripped caller-supplied text (leading/trailing whitespace removed) as the
(L, D) refinement's text — updating the existing row in place when one
exists, else creating a row under the next id — and no generation provider
is involved (the operation takes none). -/
theorem C9_amended_manual_upsert (s : Store) (uid lid n : Nat) (d rawText : String)
    (L : Label)
    (hinv : AtMostOnePerKey s)
    (hL : findOwnedLabel s uid lid = some L)
    (hd : validDifficulty d = true) :
    ((pyStrip rawText).length < 5 →
       setManualText s uid lid d rawText n = (s, .error .textTooShort)) ∧
    (¬ (pyStrip rawText).length < 5 →
       ∃ r : Refinement,
         (setManualText s uid lid d rawText n).2 = .ok r ∧
         r.generatedText = pyStrip rawText ∧
         refinementsFor (setManualText s uid lid d rawText n).1 L.id d = [r] ∧
         (∀ r0, findRefinementByKey s L.id d = some r0 → r.id = r0.id) ∧
         (findRefinementByKey s L.id d = none → r.id = n)) := by
  constructor
  · intro hlen
    exact setManualText_short_spec s uid lid n d rawText L hL hd hlen
  · intro hlen
    obtain ⟨r, h1, h2, h3, _, _, h6, h7⟩ :=
      setManualText_ok_spec s uid lid n d rawText L hinv hL hd hlen
    exact ⟨r, h1, h2, h3, h6, h7⟩

/-- Witness for C9: on the refinement-free store, "  ab  " (stripped length
2) is rejected, and "  studies  " is upserted stripped as a new row with
the next id. -/
theorem C9_witness :
    setManualText noRefStore 7 1 "simple" "  ab  " 10 =
      (noRefStore, .error .textTooShort) ∧
    (∃ r : Refinement,
       (setManualText noRefStore 7 1 "simple" "  studies  " 10).2 = .ok r ∧
       r.generatedText = pyStrip "  studies  " ∧
       refinementsFor (setManualText noRefStore 7 1 "simple" "  studies  " 10).1 1 "simple" =
         [r] ∧
       (∀ r0, findRefinementByKey noRefStore 1 "simple" = some r0 → r.id = r0.id) ∧
       (findRefinementByKey noRefStore 1 "simple" = none → r.id = 10)) :=
  ⟨(C9_amended_manual_upsert noRefStore 7 1 10 "simple" "  ab  "
      { id := 1, text := "valid", projectId := 1 } (by decide) rfl rfl).1 (by decide),
   (C9_amended_manual_upsert noRefStore 7 1 10 "simple" "  studies  "
      { id := 1, text := "valid", projectId := 1 } (by decide) rfl rfl).2 (by decide)⟩

/-- C10: deleting an owned label removes the label together with every
refinement it owns in one step: the label lookup then 404s, no (L, d) row
remains for any difficulty, and each former refinement row is unreachable;
deleting an owned project transitively removes the project, all its labels
and all their refinements, and every corresponding lookup finds nothing
(id-uniqueness of the stored rows, a primary-key fact, is assumed). -/
theorem C10_cascade_delete (s : Store) (uid lid pid : Nat) (L : Label) (p : Project)
    (hL : findOwnedLabel s uid lid = some L)
    (hp : findOwnedProject s uid pid = some p)
    (hUL : s.labels.Pairwise (fun a b => a.id ≠ b.id))
    (hUR : s.refinements.Pairwise (fun a b => a.id ≠ b.id)) :
    (deleteLabel s uid lid).2 = .ok () ∧
    getLabel (deleteLabel s uid lid).1 L.id = .error .notFoundOrForbidden ∧
    (∀ d, refinementsFor (deleteLabel s uid lid).1 L.id d = []) ∧
    (∀ r ∈ s.refinements, r.inputLabelId = L.id →
       getRefinedLabel (deleteLabel s uid lid).1 r.id = .error .notFoundOrForbidden) ∧
    (deleteProject s uid pid).2 = .ok () ∧
    (deleteProject s uid pid).1.projects.find? (fun q => q.id == p.id) = none ∧
    (∀ l ∈ s.labels, l.projectId = p.id →
       getLabel (deleteProject s uid pid).1 l.id = .error .notFoundOrForbidden) ∧
    (∀ r ∈ s.refinements, ∀ l ∈ s.labels, l.projectId = p.id → r.inputLabelId = l.id →
       getRefinedLabel (deleteProject s uid pid).1 r.id = .error .notFoundOrForbidden) := by
  have hdl2 : (deleteLabel s uid lid).2 = .ok () := by
    unfold deleteLabel
    rw [hL]
  have hdlL : (deleteLabel s uid lid).1.labels =
      s.labels.filter (fun x => !(x.id == L.id)) := by
    unfold deleteLabel
    rw [hL]
  have hdlR : (deleteLabel s uid lid).1.refinements =
      s.refinements.filter (fun x => !(x.inputLabelId == L.id)) := by
    unfold deleteLabel
    rw [hL]
  have hdp2 : (deleteProject s uid pid).2 = .ok () := by
    unfold deleteProject
    rw [hp]
  have hdpP : (deleteProject s uid pid).1.projects =
      s.projects.filter (fun q => !(q.id == p.id)) := by
    unfold deleteProject
    rw [hp]
  have hdpL : (deleteProject s uid pid).1.labels =
      s.labels.filter (fun x => !(x.projectId == p.id)) := by
    unfold deleteProject
    rw [hp]
  have hdpR : (deleteProject s uid pid).1.refinements =
      s.refinements.filter (fun x =>
        !((s.labels.filter (fun y => y.projectId == p.id)).any
          (fun y => y.id == x.inputLabelId))) := by
    unfold deleteProject
    rw [hp]
  refine ⟨hdl2, ?_, ?_, ?_, hdp2, ?_, ?_, ?_⟩
  · apply getLabel_none_of
    intro x hx
    rw [hdlL] at hx
    have hm := List.mem_filter.mp hx
    simpa using hm.2
  · intro d
    unfold refinementsFor
    rw [hdlR, List.filter_eq_nil_iff]
    intro x hx
    have hm := List.mem_filter.mp hx
    have hxi : (x.inputLabelId == L.id) = false := by simpa using hm.2
    simp [hxi]
  · intro r hr hrL
    apply getRefinedLabel_none_of
    intro x hx
    rw [hdlR] at hx
    have hm := List.mem_filter.mp hx
    cases hxx : (x.id == r.id) with
    | false => rfl
    | true =>
      exfalso
      have hxr : x = r := eq_of_pairwise_key_ne hUR hm.1 hr (by simpa using hxx)
      rw [hxr, hrL] at hm
      simp at hm
  · rw [hdpP]
    refine List.find?_eq_none.mpr ?_
    intro q hq
    have hm := List.mem_filter.mp hq
    simpa using hm.2
  · intro l hl hlp
    apply getLabel_none_of
    intro x hx
    rw [hdpL] at hx
    have hm := List.mem_filter.mp hx
    cases hxx : (x.id == l.id) with
    | false => rfl
    | true =>
      exfalso
      have hxl : x = l := eq_of_pairwise_key_ne hUL hm.1 hl (by simpa using hxx)
      rw [hxl, hlp] at hm
      simp at hm
  · intro r hr l hl hlp hrl
    apply getRefinedLabel_none_of
    intro x hx
    rw [hdpR] at hx
    have hm := List.mem_filter.mp hx
    cases hxx : (x.id == r.id) with
    | false => rfl
    | true =>
      exfalso
      have hxr : x = r := eq_of_pairwise_key_ne hUR hm.1 hr (by simpa using hxx)
      rw [hxr] at hm
      have hany : ((s.labels.filter (fun y => y.projectId == p.id)).any
          (fun y => y.id == r.inputLabelId)) = true := by
        refine List.any_eq_true.mpr ?_
        exact ⟨l, List.mem_filter.mpr ⟨hl, by simp [hlp]⟩, by simp [hrl]⟩
      rw [hany] at hm
      simp at hm

/-- Witness for C10: label and project deletion on the demo store make the
label, its refinement and the project unreachable. -/
theorem C10_witness :
    (deleteLabel demoStore 7 1).2 = .ok () ∧
    getLabel (deleteLabel demoStore 7 1).1 1 = .error .notFoundOrForbidden ∧
    refinementsFor (deleteLabel demoStore 7 1).1 1 "simple" = [] ∧
    getRefinedLabel (deleteLabel demoStore 7 1).1 100 = .error .notFoundOrForbidden ∧
    (deleteProject demoStore 7 1).1.projects.find? (fun q => q.id == 1) = none ∧
    getLabel (deleteProject demoStore 7 1).1 1 = .error .notFoundOrForbidden ∧
    getRefinedLabel (deleteProject demoStore 7 1).1 100 = .error .notFoundOrForbidden := by
  have h := C10_cascade_delete demoStore 7 1 1 { id := 1, text := "valid", projectId := 1 }
    { id := 1, name := "proj", description := "desc", userId := 7 } rfl rfl
    (by decide) (by decide)
  exact ⟨h.1, h.2.1, h.2.2.1 "simple",
    h.2.2.2.1 { id := 100, generatedText := "t1", difficulty := "simple", inputLabelId := 1 }
      (by decide) rfl,
    h.2.2.2.2.2.1,
    h.2.2.2.2.2.2.1 { id := 1, text := "valid", projectId := 1 } (by decide) rfl,
    h.2.2.2.2.2.2.2 { id := 100, generatedText := "t1", difficulty := "simple", inputLabelId := 1 }
      (by decide) { id := 1, text := "valid", projectId := 1 } (by decide) rfl rfl⟩

/-- C8: patchRefinement with only feedback supplied (of schema-valid
length) on an owned refinement invokes the reconstruction provider with
exactly the refinement's previous generated text, the feedback, the label
text and the difficulty; on provider success the refinement's text is
overwritten in place with the provider's output and the updated record is
returned, on provider failure the call surfaces the generation failure and
the post-state is the pre-state. -/
theorem C8_patch_feedback (s : Store) (uid rid : Nat) (fb : String)
    (r : Refinement) (l : Label) (rc : ReconProvider)
    (hfb5 : 5 ≤ fb.length) (hfb500 : fb.length ≤ 500)
    (hR : findOwnedRefinement s uid rid = some (r, l)) :
    (∀ t, providerResult (rc r.generatedText fb l.text r.difficulty) = .ok t →
       patchEndpoint s uid rid { feedback := some fb, generatedText := none } rc =
         ({ s with refinements := updateFirst (fun x => x.id == r.id) (fun x => { x with generatedText := t }) s.refinements },
          .ok { r with generatedText := t })) ∧
    (providerResult (rc r.generatedText fb l.text r.difficulty) = .error () →
       patchEndpoint s uid rid { feedback := some fb, generatedText := none } rc =
         (s, .error .generationFailed)) := by
  have hload : loadRefinedUpdate { feedback := some fb, generatedText := none } =
      .ok { feedback := some fb, generatedText := none } := by
    unfold loadRefinedUpdate
    simp only
    rw [if_neg (by omega)]
  constructor
  · intro t hpv
    simp [patchEndpoint, hload, patchRefinement, hR, hpv]
  · intro hpv
    simp [patchEndpoint, hload, patchRefinement, hR, hpv]

/-- Witness for C8: feedback "please fix" on the demo refinement; a provider
returning "t2" overwrites the row's text with "t2", a failing provider
leaves the store unchanged and surfaces the failure. -/
theorem C8_witness :
    patchEndpoint demoStore 7 100 { feedback := some "please fix", generatedText := none }
      (reconConst "t2") =
      ({ demoStore with refinements :=
          [{ id := 100, generatedText := "t2", difficulty := "simple", inputLabelId := 1 }] },
       .ok { id := 100, generatedText := "t2", difficulty := "simple", inputLabelId := 1 }) ∧
    patchEndpoint demoStore 7 100 { feedback := some "please fix", generatedText := none }
      reconFailing = (demoStore, .error .generationFailed) :=
  ⟨(C8_patch_feedback demoStore 7 100 "please fix"
      { id := 100, generatedText := "t1", difficulty := "simple", inputLabelId := 1 }
      { id := 1, text := "valid", projectId := 1 } (reconConst "t2")
      (by decide) (by decide) rfl).1 "t2" rfl,
   (C8_patch_feedback demoStore 7 100 "please fix"
      { id := 100, generatedText := "t1", difficulty := "simple", inputLabelId := 1 }
      { id := 1, text := "valid", projectId := 1 } reconFailing
      (by decide) (by decide) rfl).2 rfl⟩

/-- C1: the store keeps at most one refinement row per (label, difficulty)
pair, and every embedded operation (addLabels, generate, setManualText,
patch via its endpoint, deleteLabel, deleteProject) preserves this
invariant; generating twice for the same owned (L, D) with providers
returning non-empty texts t1 then t2 leaves exactly one row for (L, D),
whose text is t2; and setManualText against an existing (L, D) row updates
that row in place — same id, still exactly one row — rather than creating a
second one. -/
theorem C1_upsert_uniqueness (s : Store) (uid lid n1 n2 : Nat) (d : String) (L : Label)
    (g1 g2 : GenProvider) (t1 t2 : String)
    (hinv : AtMostOnePerKey s)
    (hL : findOwnedLabel s uid lid = some L)
    (hd : validDifficulty d = true)
    (h1 : providerResult (g1 L.text d ((projectOf s L).map Project.name)
      ((projectOf s L).map Project.description)) = .ok t1)
    (h2 : providerResult (g2 L.text d ((projectOf s L).map Project.name)
      ((projectOf s L).map Project.description)) = .ok t2) :
    (∃ r : Refinement,
       refinementsFor (generate (generate s uid lid d g1 n1).1 uid lid d g2 n2).1 L.id d =
         [r] ∧ r.generatedText = t2) ∧
    (∀ s2 uid2 lid2 d2 tx m L2 r0, AtMostOnePerKey s2 →
       findOwnedLabel s2 uid2 lid2 = some L2 → validDifficulty d2 = true →
       ¬ (pyStrip tx).length < 5 → findRefinementByKey s2 L2.id d2 = some r0 →
       ∃ r, (setManualText s2 uid2 lid2 d2 tx m).2 = .ok r ∧ r.id = r0.id ∧
         refinementsFor (setManualText s2 uid2 lid2 d2 tx m).1 L2.id d2 = [r]) ∧
    (∀ s2 uid2 pid2 ts m, AtMostOnePerKey s2 →
       AtMostOnePerKey (addLabels s2 uid2 pid2 ts m).1) ∧
    (∀ s2 uid2 lid2 d2 g m, AtMostOnePerKey s2 →
       AtMostOnePerKey (generate s2 uid2 lid2 d2 g m).1) ∧
    (∀ s2 uid2 lid2 d2 tx m, AtMostOnePerKey s2 →
       AtMostOnePerKey (setManualText s2 uid2 lid2 d2 tx m).1) ∧
    (∀ s2 uid2 rid2 u rc, AtMostOnePerKey s2 →
       AtMostOnePerKey (patchEndpoint s2 uid2 rid2 u rc).1) ∧
    (∀ s2 uid2 lid2, AtMostOnePerKey s2 → AtMostOnePerKey (deleteLabel s2 uid2 lid2).1) ∧
    (∀ s2 uid2 pid2, AtMostOnePerKey s2 → AtMostOnePerKey (deleteProject s2 uid2 pid2).1) := by
  refine ⟨?_, ?_, ?_, ?_, ?_, ?_, ?_, ?_⟩
  · obtain ⟨r1, _, _, _, _, hinv1⟩ := generate_ok_spec s uid lid n1 d g1 L t1 hinv hL hd h1
    have hsh := generate_labels_projects_eq s uid lid d g1 n1
    have hL1 : findOwnedLabel (generate s uid lid d g1 n1).1 uid lid = some L := by
      rw [findOwnedLabel_congr hsh.1 hsh.2]
      exact hL
    have h2b : providerResult (g2 L.text d
        ((projectOf (generate s uid lid d g1 n1).1 L).map Project.name)
        ((projectOf (generate s uid lid d g1 n1).1 L).map Project.description)) = .ok t2 := by
      rw [projectOf_congr hsh.2 L]
      exact h2
    obtain ⟨r2, _, hr2t, hr2filter, _, _⟩ :=
      generate_ok_spec (generate s uid lid d g1 n1).1 uid lid n2 d g2 L t2 hinv1 hL1 hd h2b
    exact ⟨r2, hr2filter, hr2t⟩
  · intro s2 uid2 lid2 d2 tx m L2 r0 hinv2 hL2 hd2 hlen hex
    obtain ⟨r, ha, _, hc, _, _, hid, _⟩ :=
      setManualText_ok_spec s2 uid2 lid2 m d2 tx L2 hinv2 hL2 hd2 hlen
    exact ⟨r, ha, hid r0 hex, hc⟩
  · intro s2 uid2 pid2 ts m h
    exact addLabels_preserves_inv s2 uid2 pid2 m ts h
  · intro s2 uid2 lid2 d2 g m h
    exact generate_preserves_inv s2 uid2 lid2 m d2 g h
  · intro s2 uid2 lid2 d2 tx m h
    exact setManualText_preserves_inv s2 uid2 lid2 m d2 tx h
  · intro s2 uid2 rid2 u rc h
    exact patchEndpoint_preserves_inv s2 uid2 rid2 u rc h
  · intro s2 uid2 lid2 h
    exact deleteLabel_preserves_inv s2 uid2 lid2 h
  · intro s2 uid2 pid2 h
    exact deleteProject_preserves_inv s2 uid2 pid2 h

/-- Witness for C1: two generate calls for (label 1, simple) on the
refinement-free store, with providers answering "t1" then "t2", leave one
row whose text is "t2". -/
theorem C1_witness :
    ∃ r : Refinement,
      refinementsFor (generate (generate noRefStore 7 1 "simple" (providerConst "t1") 100).1
        7 1 "simple" (providerConst "t2") 101).1 1 "simple" = [r] ∧
      r.generatedText = "t2" :=
  (C1_upsert_uniqueness noRefStore 7 1 100 101 "simple"
    { id := 1, text := "valid", projectId := 1 } (providerConst "t1") (providerConst "t2")
    "t1" "t2" (by decide) rfl rfl rfl rfl).1
